import Mathlib

/-!
Verification of the `url-shortener` repository.

This file gives a shallow embedding, in Lean, of the parts of the
repository's TypeScript source that the verified claims are about:

* `src/utils/urlShortener.ts` : `isValidUrl`, `formatUrl`, `shortenUrl`,
  `getShortUrl`, `extractShortCode`;
* `src/utils/redirectUtils.ts` : `handleRedirect`, `isValidShortCodeFormat`;
* `firestore.rules` : `validateLinkData`, `onlyUpdatingClicks` and the
  allow-rules for the `links` collection;
* `src/App.tsx` : the route configuration, matched with the route-ranking
  algorithm of react-router v6.

External primitives that the code calls (the browser's `new URL`
constructor, react-router's matcher, and the Firestore data model) are
modelled explicitly; their doc comments state the modelling assumptions.
Asynchronous database calls are modelled by explicit oracle environments
(`RedirectEnv`, `ShortenEnv`): a call that can reject in JS is an
`Except Unit` value, and the environment records which calls succeed.
Call traces are returned next to each result so that claims about which
operations were invoked can be stated.
-/

/-! ## Generic character-list helpers -/

/-- Split a character list at every character satisfying `p`.  The
separators are dropped; the result always has at least one (possibly
empty) piece, like JavaScript's `String.prototype.split`. -/
def splitOnPred (p : Char → Bool) : List Char → List (List Char)
  | [] => [[]]
  | c :: rest =>
    if p c then [] :: splitOnPred p rest
    else
      match splitOnPred p rest with
      | [] => [[c]]
      | s :: ss => (c :: s) :: ss

theorem splitOnPred_ne_nil (p : Char → Bool) (l : List Char) :
    splitOnPred p l ≠ [] := by
  induction l with
  | nil => simp [splitOnPred]
  | cons c rest ih =>
    simp only [splitOnPred]
    split
    · simp
    · split
      · simp
      · simp

theorem splitOnPred_cons_sep (p : Char → Bool) (c : Char) (l : List Char)
    (h : p c = true) : splitOnPred p (c :: l) = [] :: splitOnPred p l := by
  simp [splitOnPred, h]

theorem splitOnPred_of_all_not (p : Char → Bool) (l : List Char)
    (h : ∀ x ∈ l, p x = false) : splitOnPred p l = [l] := by
  induction l with
  | nil => rfl
  | cons c rest ih =>
    have hc : p c = false := h c (by simp)
    have hrest : ∀ x ∈ rest, p x = false := fun x hx => h x (by simp [hx])
    simp [splitOnPred, hc, ih hrest]

theorem takeWhile_append_all {p : Char → Bool} {l m : List Char}
    (h : ∀ x ∈ l, p x = true) :
    (l ++ m).takeWhile p = l ++ m.takeWhile p := by
  induction l with
  | nil => rfl
  | cons c rest ih =>
    have hc : p c = true := h c (by simp)
    have hrest : ∀ x ∈ rest, p x = true := fun x hx => h x (by simp [hx])
    simp [List.takeWhile, hc, ih hrest]

theorem dropWhile_append_all {p : Char → Bool} {l m : List Char}
    (h : ∀ x ∈ l, p x = true) :
    (l ++ m).dropWhile p = m.dropWhile p := by
  induction l with
  | nil => rfl
  | cons c rest ih =>
    have hc : p c = true := h c (by simp)
    have hrest : ∀ x ∈ rest, p x = true := fun x hx => h x (by simp [hx])
    simp [List.dropWhile, hc, ih hrest]

theorem takeWhile_all {p : Char → Bool} {l : List Char}
    (h : ∀ x ∈ l, p x = true) : l.takeWhile p = l := by
  have := takeWhile_append_all (m := ([] : List Char)) h
  simpa using this

/-! ## Model of the browser's `new URL` constructor

The functions `isValidUrl` and `extractShortCode` in
`src/utils/urlShortener.ts` delegate to the WHATWG `URL` constructor.
`jsURL` below models that constructor closely enough for the strings this
code base feeds it: scheme parsing, the special-scheme authority rules
(leading slashes are skipped, the authority runs to the first `/`, `\`,
`?` or `#`), userinfo stripping at the last `@`, host/port splitting at
the first `:` (an empty port is legal and means the default port),
forbidden host characters, digit-only ports up to 65535, and path
normalisation with `.` and `..` segments.  Percent-encoding, IDNA host
mapping and IPv6 bracket hosts are outside the model: no string built by
this application contains them. -/

/-- Scheme characters after the first (ASCII letter) one. -/
def isSchemeChar (c : Char) : Bool :=
  c.isAlphanum || c == '+' || c == '-' || c == '.'

/-- Parse a scheme followed by a colon; returns the lower-cased scheme
and the remainder of the input. -/
def takeScheme : List Char → Option (List Char × List Char)
  | [] => none
  | c :: rest =>
    if c.isAlpha then
      match rest.dropWhile isSchemeChar with
      | ':' :: tail => some ((c :: rest.takeWhile isSchemeChar).map Char.toLower, tail)
      | _ => none
    else none

/-- The WHATWG special schemes. -/
def specialSchemes : List String := ["ftp", "file", "http", "https", "ws", "wss"]

/-- Forbidden host code points (WHATWG). -/
def isForbiddenHostChar (c : Char) : Bool :=
  c == '\x00' || c == '\t' || c == '\n' || c == '\r' || c == ' ' ||
  c == '#' || c == '/' || c == ':' || c == '<' || c == '>' ||
  c == '?' || c == '@' || c == '[' || c == '\\' || c == ']' ||
  c == '^' || c == '|'

/-- Numeric value of a digit string. -/
def digitsVal (cs : List Char) : Nat :=
  cs.foldl (fun a c => a * 10 + (c.toNat - 48)) 0

/-- The part of an authority after the last `@` (userinfo is dropped). -/
def afterLastAt (cs : List Char) : List Char :=
  (splitOnPred (fun c => c == '@') cs).getLastD []

/-- Split a host-and-port string at the first `:`; validates the host
characters and the port digits.  Returns `(host, port)`. -/
def parseHostPort (hostport : List Char) (allowEmpty : Bool) :
    Option (List Char × Option Nat) :=
  let host := hostport.takeWhile (fun c => !(c == ':'))
  let afterColon := hostport.dropWhile (fun c => !(c == ':'))
  if host.isEmpty && !allowEmpty then none
  else if host.any isForbiddenHostChar then none
  else
    match afterColon with
    | [] => some (host, none)
    | _ :: p =>
      if p.isEmpty then some (host, none)
      else if p.all Char.isDigit && digitsVal p ≤ 65535 then
        some (host, some (digitsVal p))
      else none

/-- Resolve `.` and `..` path segments, as the WHATWG path state does. -/
def processSegs (acc : List (List Char)) : List (List Char) → List (List Char)
  | [] => acc
  | s :: rest =>
    if s = ['.'] then
      match rest with
      | [] => acc ++ [[]]
      | _ => processSegs acc rest
    else if s = ['.', '.'] then
      match rest with
      | [] => acc.dropLast ++ [[]]
      | _ => processSegs acc.dropLast rest
    else processSegs (acc ++ [s]) rest

/-- Serialised path of a special URL: always begins with `/`. -/
def specialPathname (afterAuth : List Char) : String :=
  let pathRaw := afterAuth.takeWhile (fun c => !(c == '?' || c == '#'))
  let rawSegs : List (List Char) :=
    match splitOnPred (fun c => c == '/' || c == '\\') pathRaw with
    | [] => []
    | _ :: rest => rest
  String.mk ('/' :: List.intercalate ['/'] (processSegs [] rawSegs))

/-- Serialised path of a non-special URL with an authority. -/
def nonSpecialPathname (afterAuth : List Char) : String :=
  let pathRaw := afterAuth.takeWhile (fun c => !(c == '?' || c == '#'))
  if pathRaw.isEmpty then ""
  else
    let rawSegs : List (List Char) :=
      match splitOnPred (fun c => c == '/') pathRaw with
      | [] => []
      | _ :: rest => rest
    String.mk ('/' :: List.intercalate ['/'] (processSegs [] rawSegs))

/-- The components of a parsed URL that this code base inspects. -/
structure URLRec where
  protocol : String
  host : String
  port : Option Nat
  pathname : String
  deriving Repr, DecidableEq

/-- Leading/trailing C0-control-or-space stripping and tab/newline
removal, applied by the URL constructor before parsing. -/
def stripControls (cs : List Char) : List Char :=
  (((cs.dropWhile (fun c => c.toNat ≤ 32)).reverse.dropWhile
      (fun c => c.toNat ≤ 32)).reverse).filter
    (fun c => !(c == '\t' || c == '\n' || c == '\r'))

/-- Model of the browser's `new URL(input)`: `none` when the constructor
would throw. -/
def jsURL (input : String) : Option URLRec :=
  match takeScheme (stripControls input.data) with
  | none => none
  | some (scheme, rest) =>
    let schemeS := String.mk scheme
    if specialSchemes.contains schemeS then
      let rest1 := rest.dropWhile (fun c => c == '/' || c == '\\')
      let isTerm : Char → Bool := fun c => c == '/' || c == '\\' || c == '?' || c == '#'
      let auth := rest1.takeWhile (fun c => !(isTerm c))
      let afterAuth := rest1.dropWhile (fun c => !(isTerm c))
      match parseHostPort (afterLastAt auth) (schemeS == "file") with
      | none => none
      | some (host, port) =>
        some { protocol := schemeS ++ ":", host := String.mk host, port := port,
               pathname := specialPathname afterAuth }
    else
      match rest with
      | '/' :: '/' :: r2 =>
        let isTerm : Char → Bool := fun c => c == '/' || c == '?' || c == '#'
        let auth := r2.takeWhile (fun c => !(isTerm c))
        let afterAuth := r2.dropWhile (fun c => !(isTerm c))
        match parseHostPort (afterLastAt auth) true with
        | none => none
        | some (host, port) =>
          some { protocol := schemeS ++ ":", host := String.mk host, port := port,
                 pathname := nonSpecialPathname afterAuth }
      | _ =>
        some { protocol := schemeS ++ ":", host := "", port := none,
               pathname := String.mk (rest.takeWhile (fun c => !(c == '?' || c == '#'))) }


/-! ## Embedding of `src/utils/urlShortener.ts` -/

/-- Whitespace for JavaScript's `String.prototype.trim`: space, tab,
newline, carriage return, vertical tab, form feed.  (The Unicode space
separators that `trim` also strips never occur in this application's
inputs.) -/
def isJsSpace (c : Char) : Bool :=
  c == ' ' || c == '\t' || c == '\n' || c == '\r' || c == '\x0b' || c == '\x0c'

/-- JavaScript's `String.prototype.trim`, modelled over the character
list: strip leading and trailing whitespace. -/
def jsTrim (s : String) : String :=
  String.mk (((s.data.dropWhile isJsSpace).reverse.dropWhile isJsSpace).reverse)

/-- `isValidUrl` (urlShortener.ts): `new URL(url)` must succeed and the
protocol must be `http:` or `https:`. -/
def isValidUrl (url : String) : Bool :=
  match jsURL url with
  | some u => u.protocol == "http:" || u.protocol == "https:"
  | none => false

/-- The test `url.match(/^https?:\x2f\x2f/)` of `formatUrl`: the string
starts with the literal text `http://` or `https://`. -/
def startsWithHttpScheme (s : String) : Bool :=
  match s.data with
  | 'h' :: 't' :: 't' :: 'p' :: ':' :: '/' :: '/' :: _ => true
  | 'h' :: 't' :: 't' :: 'p' :: 's' :: ':' :: '/' :: '/' :: _ => true
  | _ => false

/-- `formatUrl` (urlShortener.ts): trim, then prepend `https://` unless
the string already starts with `http://` or `https://`. -/
def formatUrl (url : String) : String :=
  if url = "" then ""
  else
    let u := jsTrim url
    if startsWithHttpScheme u then u else "https://" ++ u

/-- `ShortenUrlRequest` (urlShortener.ts). -/
structure ShortenUrlRequest where
  originalUrl : String
  customShortCode : Option String
  userId : String

/-- The `data` payload of a successful `ShortenUrlResponse`. -/
structure ShortenData where
  id : String
  originalUrl : String
  shortCode : String
  shortUrl : String
  createdAt : Nat
  deriving Repr, DecidableEq

/-- `ShortenUrlResponse` (urlShortener.ts). -/
structure ShortenUrlResponse where
  success : Bool
  data : Option ShortenData
  error : Option String
  deriving Repr, DecidableEq

/-- `CreateLinkData` (database.ts), as used by `shortenUrl`. -/
structure CreateLinkData where
  originalUrl : String
  shortCode : String
  userId : String

/-- Result shape of `validateShortCode` (database.ts):
`{ isValid, error? }`. -/
structure ShortCodeValidation where
  isValid : Bool
  error : Option String

/-- Oracle environment for `shortenUrl`.  The four database functions
imported from `database.ts` are modelled as oracles; a JS call that can
reject is an `Except Unit` value.  `baseUrl` stands for the module-level
`BASE_URL = window.location.origin`, and `now` for `new Date()`. -/
structure ShortenEnv where
  validateShortCode : String → ShortCodeValidation
  shortCodeExists : String → Except Unit Bool
  generateUniqueShortCode : Except Unit String
  createLink : CreateLinkData → Except Unit String
  baseUrl : String
  now : Nat

/-- Which of the database operations `shortenUrl` actually invoked. -/
structure ShortenTrace where
  validateCalled : Bool
  existsCalled : Bool
  generateCalled : Bool
  createCalled : Bool
  deriving Repr, DecidableEq

/-- The `createLink` persistence step shared by both code-resolution
branches of `shortenUrl`; a rejection is caught by the outer
`try`/`catch`. -/
def shortenFinish (env : ShortenEnv) (formattedUrl userId shortCode : String)
    (tr : ShortenTrace) : ShortenUrlResponse × ShortenTrace :=
  match env.createLink ⟨formattedUrl, shortCode, userId⟩ with
  | .error _ =>
    ({ success := false, data := none,
       error := some "An unexpected error occurred. Please try again." },
     { tr with createCalled := true })
  | .ok linkId =>
    ({ success := true,
       data := some ⟨linkId, formattedUrl, shortCode,
                     env.baseUrl ++ "/" ++ shortCode, env.now⟩,
       error := none },
     { tr with createCalled := true })

/-- The random-code branch of `shortenUrl`: `generateUniqueShortCode`
has its own `try`/`catch` translating a rejection into the
generation-failure response. -/
def shortenRandomPath (env : ShortenEnv) (formattedUrl userId : String) :
    ShortenUrlResponse × ShortenTrace :=
  match env.generateUniqueShortCode with
  | .error _ =>
    ({ success := false, data := none,
       error := some "Failed to generate a unique short code. Please try again." },
     ⟨false, false, true, false⟩)
  | .ok code => shortenFinish env formattedUrl userId code ⟨false, false, true, false⟩

/-- The custom-code branch of `shortenUrl`: validate the trimmed custom
code, then check its existence (a rejection there propagates to the
outer `catch`), then persist. -/
def shortenCustomPath (env : ShortenEnv) (formattedUrl userId customCode : String) :
    ShortenUrlResponse × ShortenTrace :=
  let validation := env.validateShortCode customCode
  if !validation.isValid then
    ({ success := false, data := none, error := validation.error },
     ⟨true, false, false, false⟩)
  else
    match env.shortCodeExists customCode with
    | .error _ =>
      ({ success := false, data := none,
         error := some "An unexpected error occurred. Please try again." },
       ⟨true, true, false, false⟩)
    | .ok true =>
      ({ success := false, data := none,
         error := some "This short code is already taken. Please choose a different one." },
       ⟨true, true, false, false⟩)
    | .ok false => shortenFinish env formattedUrl userId customCode ⟨true, true, false, false⟩

/-- `shortenUrl` (urlShortener.ts), returning the response together with
the trace of database operations invoked. -/
def shortenUrl (env : ShortenEnv) (req : ShortenUrlRequest) :
    ShortenUrlResponse × ShortenTrace :=
  let formattedUrl := formatUrl req.originalUrl
  if !isValidUrl formattedUrl then
    ({ success := false, data := none,
       error := some "Please enter a valid URL (e.g., https://example.com)" },
     ⟨false, false, false, false⟩)
  else
    match req.customShortCode with
    | some c =>
      if c ≠ "" ∧ jsTrim c ≠ "" then
        shortenCustomPath env formattedUrl req.userId (jsTrim c)
      else shortenRandomPath env formattedUrl req.userId
    | none => shortenRandomPath env formattedUrl req.userId

/-- `getShortUrl` (urlShortener.ts): the template
literal joining `BASE_URL`, a slash and the code. -/
def getShortUrl (baseUrl shortCode : String) : String :=
  baseUrl ++ "/" ++ shortCode

/-- `extractShortCode` (urlShortener.ts): parse the URL, split the
pathname on `/`, keep the non-empty segments, return the first one. -/
def extractShortCode (shortUrl : String) : Option String :=
  match jsURL shortUrl with
  | none => none
  | some u =>
    let pathSegments :=
      ((splitOnPred (fun c => c == '/') u.pathname.data).map String.mk).filter
        (fun s => s.length > 0)
    match pathSegments with
    | [] => none
    | s :: _ => some s

/-! ## Embedding of `src/utils/redirectUtils.ts` -/

/-- A stored `links` document as `getLinkByShortCode` returns it
(`LinkData` in database.ts); `createdAt` is a timestamp. -/
structure StoredLink where
  id : String
  originalUrl : String
  shortCode : String
  clicks : Nat
  createdAt : Nat
  deriving Repr, DecidableEq

/-- The `linkData` payload of a successful `RedirectResult`. -/
structure RedirectLinkData where
  id : String
  originalUrl : String
  shortCode : String
  clicks : Nat
  createdAt : Nat
  lastClickedAt : Option Nat
  deriving Repr, DecidableEq

/-- `RedirectResult` (redirectUtils.ts). -/
structure RedirectResult where
  success : Bool
  originalUrl : Option String
  error : Option String
  linkData : Option RedirectLinkData
  deriving Repr, DecidableEq

/-- Oracle environment for `handleRedirect`: the lookup may reject
(`StorageError`), and the two click-tracking writes either resolve or
reject, recorded by the two Boolean oracles.  `now` stands for
`new Date()`. -/
structure RedirectEnv where
  getLinkByShortCode : String → Except Unit (Option StoredLink)
  updateClickStatsOk : String → Bool
  incrementLinkClicksOk : String → Bool
  now : Nat

/-- Which database operations `handleRedirect` invoked.
`fallbackCalled` records the `incrementLinkClicks` fallback. -/
structure RedirectTrace where
  lookupCalled : Bool
  updateCalled : Bool
  fallbackCalled : Bool
  deriving Repr, DecidableEq

/-- `handleRedirect` (redirectUtils.ts), returning the result together
with the trace of database operations invoked.  Failures of
`updateClickStats` trigger the `incrementLinkClicks` fallback, and
failures of both are swallowed (only logged); a rejection of the lookup
itself is caught by the outer `try`/`catch`. -/
def handleRedirect (env : RedirectEnv) (shortCode : String) :
    RedirectResult × RedirectTrace :=
  if shortCode = "" ∨ (jsTrim shortCode).length = 0 then
    ({ success := false, originalUrl := none,
       error := some "Invalid short code", linkData := none },
     ⟨false, false, false⟩)
  else
    match env.getLinkByShortCode (jsTrim shortCode) with
    | .error _ =>
      ({ success := false, originalUrl := none,
         error := some "An error occurred while processing the redirect",
         linkData := none },
       ⟨true, false, false⟩)
    | .ok none =>
      ({ success := false, originalUrl := none,
         error := some "Link not found", linkData := none },
       ⟨true, false, false⟩)
    | .ok (some link) =>
      let fallback := !env.updateClickStatsOk link.id
      ({ success := true, originalUrl := some link.originalUrl, error := none,
         linkData := some ⟨link.id, link.originalUrl, link.shortCode,
                           link.clicks + 1, link.createdAt, some env.now⟩ },
       ⟨true, true, fallback⟩)

/-- Characters accepted by the pattern
`[A-Za-z0-9_-]` of `isValidShortCodeFormat`: uppercase letters (65–90),
lowercase letters (97–122), digits (48–57), underscore and hyphen. -/
def isShortCodeChar (c : Char) : Bool :=
  (65 ≤ c.toNat && c.toNat ≤ 90) || (97 ≤ c.toNat && c.toNat ≤ 122) ||
  (48 ≤ c.toNat && c.toNat ≤ 57) || c == '_' || c == '-'

/-- `isValidShortCodeFormat` (redirectUtils.ts): non-empty after trim,
length between 1 and 50, and every character alphanumeric, hyphen or
underscore. -/
def isValidShortCodeFormat (shortCode : String) : Bool :=
  if shortCode = "" ∨ (jsTrim shortCode).length = 0 then false
  else if shortCode.length < 1 ∨ shortCode.length > 50 then false
  else shortCode.data.all isShortCodeChar

/-! ## Model of `firestore.rules` for the `links` collection

A document's data is modelled as a record of optional, typed fields
(the five fields named in the rules plus `lastClickedAt`).  Firestore
rule semantics: accessing a field of a missing document or comparing a
missing field is an evaluation error, which makes the enclosing `allow`
condition false; this is rendered by matching on the `Option`s. -/

/-- Data of one `links/{linkId}` document. -/
structure LinkDoc where
  originalUrl : Option String
  shortCode : Option String
  userId : Option String
  createdAt : Option Nat
  clicks : Option Int
  lastClickedAt : Option Nat
  deriving Repr, DecidableEq

/-- `validateLinkData` (firestore.rules): the five required keys are
present with the right types and `clicks == 0`. -/
def validateLinkData (data : LinkDoc) : Bool :=
  data.originalUrl.isSome && data.shortCode.isSome && data.userId.isSome &&
  data.createdAt.isSome && data.clicks == some 0

/-- `onlyUpdatingClicks` (firestore.rules):
`newData.diff(oldData).affectedKeys().hasOnly(['clicks'])` — every field
other than `clicks` is unchanged — and `newData.clicks >= oldData.clicks`
(an error, hence false, when either side is missing). -/
def onlyUpdatingClicks (newData oldData : LinkDoc) : Bool :=
  (newData.originalUrl == oldData.originalUrl) &&
  (newData.shortCode == oldData.shortCode) &&
  (newData.userId == oldData.userId) &&
  (newData.createdAt == oldData.createdAt) &&
  (newData.lastClickedAt == oldData.lastClickedAt) &&
  (match newData.clicks, oldData.clicks with
   | some n, some o => o ≤ n
   | _, _ => false)

/-- The `allow create` condition: an authenticated user, the uid check
against `resource.data.userId` (`resource` is the previously existing
document, which is absent on a create, so the access errors and the
condition is false), and `validateLinkData` on the incoming data. -/
def allowCreate (authUid : Option String) (resource : Option LinkDoc)
    (reqData : LinkDoc) : Bool :=
  authUid.isSome &&
  (match resource, authUid with
   | some old, some uid => old.userId == some uid
   | _, _ => false) &&
  validateLinkData reqData

/-- The `allow update` condition: an authenticated owner and
`onlyUpdatingClicks`. -/
def allowUpdate (authUid : Option String) (oldDoc newDoc : LinkDoc) : Bool :=
  authUid.isSome &&
  (match authUid with
   | some uid => oldDoc.userId == some uid
   | none => false) &&
  onlyUpdatingClicks newDoc oldDoc

/-- One permitted write on a `links` document slot (`none` = absent).
The create and update steps require the corresponding data validator of
the rules (`validateLinkData`, `onlyUpdatingClicks`); these conditions
are implied by the full `allow` rules (see `allowCreate_validates` and
`allowUpdate_onlyClicks`), so every rules-permitted write is a
`LinksOp` step. -/
inductive LinksOp : Option LinkDoc → Option LinkDoc → Prop
  | create (d : LinkDoc) : validateLinkData d = true → LinksOp none (some d)
  | update (old new : LinkDoc) : onlyUpdatingClicks new old = true →
      LinksOp (some old) (some new)
  | delete (old : LinkDoc) : LinksOp (some old) none

/-- A document slot reachable from the absent state by permitted
writes. -/
def ReachableLinks (s : Option LinkDoc) : Prop :=
  Relation.ReflTransGen LinksOp none s

/-! ## Model of the route configuration of `src/App.tsx`

react-router v6 does not match `<Route>`s in order: it ranks the
patterns with `computeScore` (static segment 10, dynamic segment 3,
empty segment 1, index 2, splat penalty −2, plus the segment count) and
tries them best score first, ties broken by definition order.  The
top-level `<Routes>` of App.tsx has the two siblings `/:shortCode` and
`/*`; the named routes `/`, `/login`, `/signup`, `/dashboard` and the
`*` fallback live in a descendant `<Routes>` under `/*`, which matches
against the same pathname. -/

/-- A `:param` segment, per react-router's `/^:\w+$/`. -/
def isParamSeg (seg : String) : Bool :=
  match seg.data with
  | ':' :: rest => !rest.isEmpty && rest.all (fun c => c.isAlphanum || c == '_')
  | _ => false

/-- Split a string at every `/`, like JavaScript `split("/")`. -/
def splitOnSlash (s : String) : List String :=
  (splitOnPred (fun c => c == '/') s.data).map String.mk

/-- `computeScore` of react-router v6 (for non-index routes). -/
def computeScore (path : String) : Int :=
  let segs := splitOnSlash path
  let initial : Int := segs.length
  let initial := if segs.contains "*" then initial - 2 else initial
  segs.foldl
    (fun sc seg =>
      if seg == "*" then sc
      else if isParamSeg seg then sc + 3
      else if seg == "" then sc + 1
      else sc + 10)
    initial

/-- Insert a pattern into a score-sorted list, after any pattern of
greater or equal score (stable: definition order breaks ties). -/
def insertRanked (p : String) : List String → List String
  | [] => [p]
  | q :: qs =>
    if computeScore q < computeScore p then p :: q :: qs
    else q :: insertRanked p qs

/-- Sort route patterns by descending `computeScore`, stably (ties keep
definition order). -/
def rankRoutes (ps : List String) : List String :=
  ps.foldl (fun acc p => insertRanked p acc) []

/-- The non-empty segments of a pathname. -/
def splitSegs (s : String) : List String :=
  (splitOnSlash s).filter (fun seg => seg ≠ "")

/-- Does a route pattern (as segments) match a pathname (as segments)?
A `:param` segment matches any one segment, a trailing `*` matches any
remainder including the empty one. -/
def patMatch : List String → List String → Bool
  | ["*"], _ => true
  | [], us => us.isEmpty
  | _ :: _, [] => false
  | p :: ps, u :: us => (isParamSeg p || p == u) && patMatch ps us

/-- The best-ranked pattern of `ps` matching `path`, per react-router
v6 matching. -/
def firstMatch (ps : List String) (path : String) : Option String :=
  (rankRoutes ps).find? (fun p => patMatch (splitSegs p) (splitSegs path))

/-- What each route of App.tsx renders. -/
inductive Page
  | redirectPage (shortCode : String)
  | landingPage
  | loginPage
  | signUpPage
  | dashboardPage
  | navigateHome
  deriving Repr, DecidableEq

/-- The two top-level sibling routes of App.tsx, in definition order. -/
def topRoutePatterns : List String := ["/:shortCode", "/*"]

/-- The descendant routes rendered under the `/*` route, in definition
order; `*` is the `<Navigate to="/">` fallback. -/
def innerRoutePatterns : List String := ["/", "/login", "/signup", "/dashboard", "*"]

/-- Concrete inputs used by witnesses and counterexamples. -/
def demoLink : StoredLink :=
  ⟨"id1", "https://example.com/page", "abc", 41, 100⟩

/-- A redirect environment whose store holds exactly `demoLink` under
code `abc` and whose two click-tracking writes both reject. -/
def redirectEnvA : RedirectEnv :=
  ⟨fun s => if s = "abc" then .ok (some demoLink) else .ok none,
   fun _ => false, fun _ => false, 555⟩

/-- A shorten environment: every code validates, only the code `taken`
already exists, generation yields `rnd123`, creation yields id `newid`. -/
def shortenEnvA : ShortenEnv :=
  ⟨fun _ => ⟨true, none⟩,
   fun s => .ok (s == "taken"),
   .ok "rnd123",
   fun _ => .ok "newid",
   "https://short.example", 777⟩

/-- A shorten request with scheme `ftp://`. -/
def reqFtp : ShortenUrlRequest := ⟨"ftp://example.com", none, "u1"⟩

/-- A shorten request whose custom code is already taken. -/
def reqTaken : ShortenUrlRequest := ⟨"https://example.com", some "taken", "u1"⟩

/-- A shorten request whose custom code is whitespace only. -/
def reqWhitespace : ShortenUrlRequest := ⟨"example.com", some "   ", "u2"⟩

/-- A sample document satisfying `validateLinkData`. -/
def demoDoc : LinkDoc :=
  ⟨some "https://example.com", some "abc", some "u1", some 0, some 0, none⟩

/-- The page the App.tsx route configuration resolves a pathname to,
following react-router v6 ranking at both levels. -/
def resolveRoute (path : String) : Page :=
  match firstMatch topRoutePatterns path with
  | some "/:shortCode" =>
    match splitSegs path with
    | [s] => Page.redirectPage s
    | _ => Page.redirectPage ""
  | _ =>
    match firstMatch innerRoutePatterns path with
    | some "/" => Page.landingPage
    | some "/login" => Page.loginPage
    | some "/signup" => Page.signUpPage
    | some "/dashboard" => Page.dashboardPage
    | _ => Page.navigateHome

/-! ## Theorems -/

theorem length_zero_iff_eq_empty (s : String) : s.length = 0 ↔ s = "" := by
  constructor
  · intro h
    cases s with
    | mk data =>
      cases data with
      | nil => rfl
      | cons a t => simp [String.length] at h
  · rintro rfl
    rfl

theorem handleRedirect_guard_false {code : String} (h : (jsTrim code) ≠ "") :
    ¬(code = "" ∨ (jsTrim code).length = 0) := by
  rintro (rfl | hlen)
  · exact h (by decide)
  · exact h ((length_zero_iff_eq_empty (jsTrim code)).mp hlen)

/-- Claim C1: for every short code whose repository lookup returns a
link record, the success result of `handleRedirect` carries
`linkData.clicks` equal to the stored clicks value plus one — for every
outcome of the click-tracking writes, which the environment leaves
arbitrary. -/
theorem claim_C1 (env : RedirectEnv) (code : String) (link : StoredLink)
    (hne : (jsTrim code) ≠ "")
    (hlk : env.getLinkByShortCode (jsTrim code) = .ok (some link)) :
    (handleRedirect env code).1.success = true ∧
    (handleRedirect env code).1.linkData =
      some ⟨link.id, link.originalUrl, link.shortCode, link.clicks + 1,
            link.createdAt, some env.now⟩ := by
  have hg := handleRedirect_guard_false hne
  simp [handleRedirect, hg, hlk]

/-- Witness for C1: in `redirectEnvA` both tracking writes reject, yet
the returned clicks value is the stored 41 plus one. -/
theorem claim_C1_witness :
    (handleRedirect redirectEnvA "abc").1.success = true ∧
    (handleRedirect redirectEnvA "abc").1.linkData =
      some ⟨"id1", "https://example.com/page", "abc", 42, 100, some 555⟩ :=
  claim_C1 redirectEnvA "abc" demoLink (by decide) rfl

/-- Claim C2: for every link found by lookup, the fallback
`incrementLinkClicks` is invoked exactly when `updateClickStats`
rejects (`fallbackCalled` equals the negated update outcome), and the
result is a success carrying the link's `originalUrl` whatever the two
tracking outcomes are. -/
theorem claim_C2 (env : RedirectEnv) (code : String) (link : StoredLink)
    (hne : (jsTrim code) ≠ "")
    (hlk : env.getLinkByShortCode (jsTrim code) = .ok (some link)) :
    (handleRedirect env code).2.fallbackCalled = !env.updateClickStatsOk link.id ∧
    (handleRedirect env code).1.success = true ∧
    (handleRedirect env code).1.originalUrl = some link.originalUrl := by
  have hg := handleRedirect_guard_false hne
  simp [handleRedirect, hg, hlk]

/-- Witness for C2: in `redirectEnvA` both `updateClickStats` and the
`incrementLinkClicks` fallback reject, the fallback is invoked, and the
redirect still succeeds with the original URL. -/
theorem claim_C2_witness :
    (handleRedirect redirectEnvA "abc").2.fallbackCalled = true ∧
    (handleRedirect redirectEnvA "abc").1.success = true ∧
    (handleRedirect redirectEnvA "abc").1.originalUrl =
      some "https://example.com/page" :=
  claim_C2 redirectEnvA "abc" demoLink (by decide) rfl

/-- Counterexample to claim C4: `bad@code!` violates the short-code
format, yet `handleRedirect` performs the repository lookup and returns
the not-found error instead of an invalid-code result. -/
theorem claim_C4_counterexample :
    isValidShortCodeFormat "bad@code!" = false ∧
    (handleRedirect redirectEnvA "bad@code!").2.lookupCalled = true ∧
    (handleRedirect redirectEnvA "bad@code!").1.error = some "Link not found" := by
  decide

/-- Amended claim C4: `handleRedirect` rejects with the invalid-code
error and without a lookup exactly the codes that are empty or
whitespace-only; every code with a non-empty trim is passed to the
repository lookup, regardless of character-set or length violations. -/
theorem claim_C4_amended (env : RedirectEnv) (code : String) :
    ((jsTrim code) = "" →
      (handleRedirect env code).1.success = false ∧
      (handleRedirect env code).1.error = some "Invalid short code" ∧
      (handleRedirect env code).2.lookupCalled = false) ∧
    ((jsTrim code) ≠ "" → (handleRedirect env code).2.lookupCalled = true) := by
  constructor
  · intro h
    have hcond : code = "" ∨ (jsTrim code).length = 0 :=
      Or.inr (by simp [h])
    simp [handleRedirect, hcond]
  · intro h
    have hg := handleRedirect_guard_false h
    cases hlk : env.getLinkByShortCode (jsTrim code) with
    | error e => simp [handleRedirect, hg, hlk]
    | ok o => cases o <;> simp [handleRedirect, hg, hlk]

/-- Witness for the amended C4: a whitespace-only code is rejected
without lookup, and a format-violating code still reaches the lookup. -/
theorem claim_C4_amended_witness :
    ((handleRedirect redirectEnvA "   ").1.error = some "Invalid short code" ∧
     (handleRedirect redirectEnvA "   ").2.lookupCalled = false) ∧
    (handleRedirect redirectEnvA "zz@!").2.lookupCalled = true :=
  ⟨⟨((claim_C4_amended redirectEnvA "   ").1 (by decide)).2.1,
    ((claim_C4_amended redirectEnvA "   ").1 (by decide)).2.2⟩,
   (claim_C4_amended redirectEnvA "zz@!").2 (by decide)⟩

/-- Claim C7: every string with a character outside `[A-Za-z0-9_-]`, or
of length 0, or of length above 50, fails `isValidShortCodeFormat`. -/
theorem claim_C7 (s : String)
    (h : s.length = 0 ∨ 50 < s.length ∨ ∃ c ∈ s.data, isShortCodeChar c = false) :
    isValidShortCodeFormat s = false := by
  by_cases h1 : s = "" ∨ (jsTrim s).length = 0
  · simp [isValidShortCodeFormat, h1]
  · by_cases h2 : s.length < 1 ∨ s.length > 50
    · simp only [isValidShortCodeFormat, if_neg h1, if_pos h2]
    · rcases h with h0 | h50 | ⟨c, hc, hbad⟩
      · exact absurd (Or.inl ((length_zero_iff_eq_empty s).mp h0)) h1
      · exact absurd (Or.inr h50) h2
      · simp only [isValidShortCodeFormat, if_neg h1, if_neg h2]
        refine Bool.eq_false_iff.mpr fun hall => ?_
        have := List.all_eq_true.mp hall c hc
        simp [hbad] at this

/-- Witness for C7 at the concrete string `bad@x`. -/
theorem claim_C7_witness : isValidShortCodeFormat "bad@x" = false :=
  claim_C7 "bad@x" (Or.inr (Or.inr ⟨'@', by decide, by decide⟩))

theorem validateLinkData_clicks {d : LinkDoc} (h : validateLinkData d = true) :
    d.clicks = some 0 := by
  unfold validateLinkData at h
  simp only [Bool.and_eq_true, beq_iff_eq] at h
  exact h.2

theorem allowCreate_validates {authUid : Option String} {resource : Option LinkDoc}
    {d : LinkDoc} (h : allowCreate authUid resource d = true) :
    validateLinkData d = true := by
  unfold allowCreate at h
  simp only [Bool.and_eq_true] at h
  exact h.2

theorem allowUpdate_onlyClicks {authUid : Option String} {oldDoc newDoc : LinkDoc}
    (h : allowUpdate authUid oldDoc newDoc = true) :
    onlyUpdatingClicks newDoc oldDoc = true := by
  unfold allowUpdate at h
  simp only [Bool.and_eq_true] at h
  exact h.2

theorem onlyUpdatingClicks_spec {newDoc oldDoc : LinkDoc}
    (h : onlyUpdatingClicks newDoc oldDoc = true) :
    newDoc.originalUrl = oldDoc.originalUrl ∧ newDoc.shortCode = oldDoc.shortCode ∧
    newDoc.userId = oldDoc.userId ∧ newDoc.createdAt = oldDoc.createdAt ∧
    newDoc.lastClickedAt = oldDoc.lastClickedAt ∧
    ∃ o n : Int, oldDoc.clicks = some o ∧ newDoc.clicks = some n ∧ o ≤ n := by
  unfold onlyUpdatingClicks at h
  simp only [Bool.and_eq_true, beq_iff_eq] at h
  obtain ⟨⟨⟨⟨⟨h1, h2⟩, h3⟩, h4⟩, h5⟩, h6⟩ := h
  refine ⟨h1, h2, h3, h4, h5, ?_⟩
  cases hn : newDoc.clicks with
  | none => rw [hn] at h6; simp at h6
  | some n =>
    cases ho : oldDoc.clicks with
    | none => rw [hn, ho] at h6; simp at h6
    | some o =>
      rw [hn, ho] at h6
      exact ⟨o, n, rfl, rfl, by simpa using h6⟩

/-- Claim C3: under the security rules, a permitted create carries
`clicks == 0`, a permitted update changes only the `clicks` field and
never decreases it, and consequently every document reachable by
permitted operations has a non-negative clicks value, non-decreasing
along updates. -/
theorem claim_C3 :
    (∀ authUid resource d, allowCreate authUid resource d = true →
       d.clicks = some 0) ∧
    (∀ authUid oldDoc newDoc, allowUpdate authUid oldDoc newDoc = true →
       newDoc.originalUrl = oldDoc.originalUrl ∧
       newDoc.shortCode = oldDoc.shortCode ∧
       newDoc.userId = oldDoc.userId ∧
       newDoc.createdAt = oldDoc.createdAt ∧
       newDoc.lastClickedAt = oldDoc.lastClickedAt ∧
       ∃ o n : Int, oldDoc.clicks = some o ∧ newDoc.clicks = some n ∧ o ≤ n) ∧
    (∀ oldDoc newDoc, LinksOp (some oldDoc) (some newDoc) →
       ∀ o n : Int, oldDoc.clicks = some o → newDoc.clicks = some n → o ≤ n) ∧
    (∀ d, ReachableLinks (some d) → ∃ n : Int, d.clicks = some n ∧ 0 ≤ n) := by
  refine ⟨?_, ?_, ?_, ?_⟩
  · intro a r d h
    exact validateLinkData_clicks (allowCreate_validates h)
  · intro a oldDoc newDoc h
    exact onlyUpdatingClicks_spec (allowUpdate_onlyClicks h)
  · intro oldDoc newDoc hstep o n ho hn
    cases hstep with
    | update _ _ hupd =>
      obtain ⟨_, _, _, _, _, o', n', ho', hn', hle⟩ := onlyUpdatingClicks_spec hupd
      rw [ho] at ho'
      rw [hn] at hn'
      injection ho' with ho2
      injection hn' with hn2
      omega
  · intro d h
    have key : ∀ s, Relation.ReflTransGen LinksOp none s →
        ∀ dd, s = some dd → ∃ n : Int, dd.clicks = some n ∧ 0 ≤ n := by
      intro s hs
      induction hs with
      | refl =>
        intro dd hdd
        cases hdd
      | tail hab hbc ih =>
        intro dd hdd
        cases hbc with
        | create d2 hval =>
          injection hdd with hdd2
          subst hdd2
          exact ⟨0, validateLinkData_clicks hval, le_refl 0⟩
        | update old2 new2 hupd =>
          injection hdd with hdd2
          subst hdd2
          obtain ⟨n0, hn0, hge⟩ := ih old2 rfl
          obtain ⟨_, _, _, _, _, o', n', ho', hn', hle⟩ := onlyUpdatingClicks_spec hupd
          rw [hn0] at ho'
          injection ho' with ho2
          exact ⟨n', hn', by omega⟩
        | delete old2 => cases hdd
    exact key (some d) h d rfl

/-- Witness for C3: the document `demoDoc` is reachable by one
permitted create and its clicks value is non-negative. -/
theorem claim_C3_witness : ∃ n : Int, demoDoc.clicks = some n ∧ 0 ≤ n :=
  claim_C3.2.2.2 demoDoc
    (Relation.ReflTransGen.single (LinksOp.create demoDoc (by decide)))

/-- Claim C6: a custom code that passes validation but whose existence
check reports it present makes `shortenUrl` fail with the code-taken
error, and neither `createLink` nor the random-code generator is
invoked, so nothing is persisted on this path. -/
theorem claim_C6 (env : ShortenEnv) (req : ShortenUrlRequest) (c : String)
    (hc : req.customShortCode = some c)
    (hne : c ≠ "" ∧ jsTrim c ≠ "")
    (hurl : isValidUrl (formatUrl req.originalUrl) = true)
    (hvalid : (env.validateShortCode (jsTrim c)).isValid = true)
    (hex : env.shortCodeExists (jsTrim c) = .ok true) :
    (shortenUrl env req).1.success = false ∧
    (shortenUrl env req).1.error =
      some "This short code is already taken. Please choose a different one." ∧
    (shortenUrl env req).2.createCalled = false ∧
    (shortenUrl env req).2.generateCalled = false := by
  simp [shortenUrl, hurl, hc, hne, shortenCustomPath, hvalid, hex]

/-- Witness for C6: the custom code `taken` already exists in
`shortenEnvA`, so the request fails without any persistence. -/
theorem claim_C6_witness :
    (shortenUrl shortenEnvA reqTaken).1.success = false ∧
    (shortenUrl shortenEnvA reqTaken).1.error =
      some "This short code is already taken. Please choose a different one." ∧
    (shortenUrl shortenEnvA reqTaken).2.createCalled = false ∧
    (shortenUrl shortenEnvA reqTaken).2.generateCalled = false :=
  claim_C6 shortenEnvA reqTaken "taken" rfl (by decide) (by decide) rfl rfl

/-- Claim C9: a missing, empty or whitespace-only custom code is
treated as absent: no validation and no existence check on it, the
random generator is invoked, and a successful response carries the
generated code. -/
theorem claim_C9 (env : ShortenEnv) (req : ShortenUrlRequest)
    (habsent : req.customShortCode = none ∨
      ∃ s, req.customShortCode = some s ∧ jsTrim s = "")
    (hurl : isValidUrl (formatUrl req.originalUrl) = true) :
    (shortenUrl env req).2.validateCalled = false ∧
    (shortenUrl env req).2.existsCalled = false ∧
    (shortenUrl env req).2.generateCalled = true ∧
    (∀ g d, env.generateUniqueShortCode = .ok g →
       (shortenUrl env req).1.data = some d → d.shortCode = g) := by
  have hrand :
      (shortenUrl env req) = shortenRandomPath env (formatUrl req.originalUrl) req.userId := by
    rcases habsent with hnone | ⟨s, hs, hst⟩
    · simp [shortenUrl, hurl, hnone]
    · have hcond : ¬(s ≠ "" ∧ jsTrim s ≠ "") := fun hand => hand.2 hst
      simp [shortenUrl, hurl, hs, hcond]
  rw [hrand]
  cases hg : env.generateUniqueShortCode with
  | error e =>
    simp [shortenRandomPath, hg]
  | ok g0 =>
    cases hcr : env.createLink ⟨formatUrl req.originalUrl, g0, req.userId⟩ with
    | error e =>
      simp [shortenRandomPath, hg, shortenFinish, hcr]
    | ok linkId =>
      refine ⟨?_, ?_, ?_, ?_⟩
      · simp [shortenRandomPath, hg, shortenFinish, hcr]
      · simp [shortenRandomPath, hg, shortenFinish, hcr]
      · simp [shortenRandomPath, hg, shortenFinish, hcr]
      · intro g d hG hD
        injection hG with hG2
        subst hG2
        have hD2 : (shortenRandomPath env (formatUrl req.originalUrl) req.userId).1.data =
            some ⟨linkId, formatUrl req.originalUrl, g0,
                  env.baseUrl ++ "/" ++ g0, env.now⟩ := by
          simp [shortenRandomPath, hg, shortenFinish, hcr]
        rw [hD2] at hD
        injection hD with hD3
        rw [← hD3]

/-- Witness for C9: a whitespace-only custom code leads to the
random-code path in `shortenEnvA`. -/
theorem claim_C9_witness :
    (shortenUrl shortenEnvA reqWhitespace).2.validateCalled = false ∧
    (shortenUrl shortenEnvA reqWhitespace).2.existsCalled = false ∧
    (shortenUrl shortenEnvA reqWhitespace).2.generateCalled = true :=
  ⟨(claim_C9 shortenEnvA reqWhitespace
      (Or.inr ⟨"   ", rfl, by decide⟩) (by decide)).1,
   (claim_C9 shortenEnvA reqWhitespace
      (Or.inr ⟨"   ", rfl, by decide⟩) (by decide)).2.1,
   (claim_C9 shortenEnvA reqWhitespace
      (Or.inr ⟨"   ", rfl, by decide⟩) (by decide)).2.2.1⟩

/-- Evaluation of the App.tsx route configuration showing the bug in
claim C8: react-router ranks the dynamic `/:shortCode` route above the
`/*` splat that wraps the named routes, so the named single-segment
paths `/login`, `/signup` and `/dashboard` resolve to the redirect
page; only `/` reaches its named page. -/
theorem claim_C8_eval :
    resolveRoute "/login" = Page.redirectPage "login" ∧
    resolveRoute "/signup" = Page.redirectPage "signup" ∧
    resolveRoute "/dashboard" = Page.redirectPage "dashboard" ∧
    resolveRoute "/" = Page.landingPage ∧
    resolveRoute "/login" ≠ Page.loginPage := by
  decide

/-- Counterexample to claim C5: `ftp://example.com` carries a scheme
that is neither http nor https, yet `formatUrl` prepends `https://` to
it — the prefix test only looks for a literal `http://`/`https://`
prefix, not for scheme presence — and the resulting string parses as a
valid https URL (host `ftp`, empty port), so `shortenUrl` succeeds
instead of failing with the invalid-URL error. -/
theorem claim_C5_counterexample :
    jsURL "ftp://example.com" =
      some { protocol := "ftp:", host := "example.com", port := none,
             pathname := "/" } ∧
    formatUrl "ftp://example.com" = "https://ftp://example.com" ∧
    isValidUrl "https://ftp://example.com" = true ∧
    (shortenUrl shortenEnvA reqFtp).1.success = true ∧
    (shortenUrl shortenEnvA reqFtp).1.error = none := by
  decide

/-- Amended claim C5: `formatUrl` prepends `https://` exactly when the
trimmed input does not start with the literal `http://` or `https://`,
scheme or no scheme; an input with a different scheme such as
`ftp://example.com` is rewritten to `https://ftp://example.com`, which
parses as an https URL, so `shortenUrl` accepts it rather than failing
with the invalid-URL error. -/
theorem claim_C5_amended :
    (∀ url : String, url ≠ "" → startsWithHttpScheme (jsTrim url) = false →
       formatUrl url = "https://" ++ jsTrim url) ∧
    (∀ url : String, url ≠ "" → startsWithHttpScheme (jsTrim url) = true →
       formatUrl url = jsTrim url) ∧
    (shortenUrl shortenEnvA reqFtp).1.success = true ∧
    (shortenUrl shortenEnvA reqFtp).1.data =
      some ⟨"newid", "https://ftp://example.com", "rnd123",
            "https://short.example/rnd123", 777⟩ := by
  refine ⟨?_, ?_, ?_, ?_⟩
  · intro url h1 h2
    simp [formatUrl, h1, h2]
  · intro url h1 h2
    simp [formatUrl, h1, h2]
  · decide
  · decide

/-- Witness for the amended C5 at the input `ftp://example.com`. -/
theorem claim_C5_amended_witness :
    formatUrl "ftp://example.com" = "https://" ++ jsTrim "ftp://example.com" :=
  claim_C5_amended.1 "ftp://example.com" (by decide) (by decide)

theorem shortCodeChar_facts {c : Char} (h : isShortCodeChar c = true) :
    32 < c.toNat ∧ c ≠ '/' ∧ c ≠ '\\' ∧ c ≠ '?' ∧ c ≠ '#' ∧ c ≠ '.' := by
  have h32 : 32 < c.toNat := by
    unfold isShortCodeChar at h
    simp only [Bool.or_eq_true, Bool.and_eq_true, decide_eq_true_eq, beq_iff_eq] at h
    rcases h with (((⟨h1, h2⟩ | ⟨h1, h2⟩) | ⟨h1, h2⟩) | rfl) | rfl
    · omega
    · omega
    · omega
    · decide
    · decide
  refine ⟨h32, ?_, ?_, ?_, ?_, ?_⟩
  all_goals intro he
  all_goals subst he
  all_goals revert h
  all_goals decide

theorem dropWhile_eq_self_of_head {p : Char → Bool} {l : List Char}
    (h : ∀ c ∈ l, p c = false) : l.dropWhile p = l := by
  cases l with
  | nil => rfl
  | cons a t => simp [List.dropWhile, h a (by simp)]

theorem stripControls_eq_self {l : List Char} (h : ∀ c ∈ l, 32 < c.toNat) :
    stripControls l = l := by
  unfold stripControls
  have hp : ∀ c ∈ l, (decide (c.toNat ≤ 32)) = false := by
    intro c hc
    simpa using Nat.not_le.mpr (h c hc)
  rw [dropWhile_eq_self_of_head hp]
  have hp2 : ∀ c ∈ l.reverse, (decide (c.toNat ≤ 32)) = false := by
    intro c hc
    exact hp c (List.mem_reverse.mp hc)
  rw [dropWhile_eq_self_of_head hp2, List.reverse_reverse]
  apply List.filter_eq_self.mpr
  intro a ha
  have h32 := h a ha
  have ht : a ≠ '\t' := by rintro rfl; revert h32; decide
  have hn2 : a ≠ '\n' := by rintro rfl; revert h32; decide
  have hr : a ≠ '\r' := by rintro rfl; revert h32; decide
  simp [ht, hn2, hr]

theorem specialPathname_slash_code {code : String}
    (hcodec : ∀ c ∈ code.data, isShortCodeChar c = true) :
    specialPathname ('/' :: code.data) = String.mk ('/' :: code.data) := by
  unfold specialPathname
  have htake : ('/' :: code.data).takeWhile (fun c => !(c == '?' || c == '#')) =
      '/' :: code.data := by
    apply takeWhile_all
    intro x hx
    rcases hx with _ | hx'
    · decide
    · obtain ⟨-, -, -, hq, hh, -⟩ := shortCodeChar_facts (hcodec x (by assumption))
      simp [hq, hh]
  rw [htake]
  have hnoslash : ∀ x ∈ code.data, ((fun c => c == '/' || c == '\\') x) = false := by
    intro x hx
    obtain ⟨-, hs, hb, -, -, -⟩ := shortCodeChar_facts (hcodec x hx)
    simp [hs, hb]
  have hsplit : splitOnPred (fun c => c == '/' || c == '\\') ('/' :: code.data) =
      [] :: [code.data] := by
    rw [splitOnPred_cons_sep _ _ _ (by decide),
        splitOnPred_of_all_not _ _ hnoslash]
  simp only [hsplit]
  have hdot : ¬(code.data = ['.']) := by
    intro hd
    have : isShortCodeChar '.' = true := hcodec '.' (by rw [hd]; simp)
    revert this
    decide
  have hddot : ¬(code.data = ['.', '.']) := by
    intro hd
    have : isShortCodeChar '.' = true := hcodec '.' (by rw [hd]; simp)
    revert this
    decide
  have hps : processSegs [] [code.data] = [code.data] := by
    simp [processSegs, hdot, hddot]
  simp only [hps]
  simp [List.intercalate]


theorem jsURL_special_parse (preData : List Char) (hp code : String)
    (host : List Char) (port : Option Nat) (input : String)
    (hstrip : stripControls input.data =
       preData ++ ':' :: '/' :: '/' :: (hp.data ++ '/' :: code.data))
    (hts : takeScheme (preData ++ ':' :: '/' :: '/' :: (hp.data ++ '/' :: code.data)) =
       some (preData, '/' :: '/' :: (hp.data ++ '/' :: code.data)))
    (hcont : specialSchemes.contains (String.mk preData) = true)
    (hnotfile : ((String.mk preData) == ("file" : String)) = false)
    (hhp0 : hp ≠ "")
    (hhpc : ∀ c ∈ hp.data,
      (c == '/' || c == '\\' || c == '?' || c == '#' || c == '@') = false ∧
      32 < c.toNat)
    (hhost : parseHostPort hp.data false = some (host, port))
    (hcodec : ∀ c ∈ code.data, isShortCodeChar c = true) :
    jsURL input =
      some { protocol := String.mk preData ++ ":", host := String.mk host,
             port := port, pathname := String.mk ('/' :: code.data) } := by
  obtain ⟨hc0, ht0, hhd⟩ : ∃ hc0 ht0, hp.data = hc0 :: ht0 := by
    cases hd : hp.data with
    | nil =>
      exfalso
      apply hhp0
      cases hp with
      | mk d => cases hd; rfl
    | cons a t => exact ⟨a, t, rfl⟩
  have hterm : ∀ x ∈ hp.data,
      (!((fun c => c == '/' || c == '\\' || c == '?' || c == '#') x)) = true := by
    intro x hx
    have h5 := (hhpc x hx).1
    simp only [Bool.or_eq_false_iff] at h5
    simp [h5.1.1.1.1, h5.1.1.1.2, h5.1.1.2, h5.1.2]
  have hnotslash : ((fun c => c == '/' || c == '\\') hc0) = false := by
    have h5 := (hhpc hc0 (by rw [hhd]; simp)).1
    simp only [Bool.or_eq_false_iff] at h5
    simp [h5.1.1.1.1, h5.1.1.1.2]
  have hnoat : ∀ x ∈ hp.data, ((fun c => c == '@') x) = false := by
    intro x hx
    have h5 := (hhpc x hx).1
    simp only [Bool.or_eq_false_iff] at h5
    simp [h5.2]
  have hdrop : (hp.data ++ '/' :: code.data).dropWhile
      (fun c => c == '/' || c == '\\') = hp.data ++ '/' :: code.data := by
    rw [hhd]
    simp only [List.cons_append, List.dropWhile_cons, hnotslash]
    simp
  have hauth : (hp.data ++ '/' :: code.data).takeWhile
      (fun c => !(c == '/' || c == '\\' || c == '?' || c == '#')) = hp.data := by
    rw [takeWhile_append_all hterm]
    simp [List.takeWhile]
  have hafter : (hp.data ++ '/' :: code.data).dropWhile
      (fun c => !(c == '/' || c == '\\' || c == '?' || c == '#')) =
      '/' :: code.data := by
    rw [dropWhile_append_all hterm]
    simp [List.dropWhile]
  have hat : afterLastAt hp.data = hp.data := by
    unfold afterLastAt
    rw [splitOnPred_of_all_not _ _ hnoat]
    rfl
  have hdrop2 : ('/' :: '/' :: (hp.data ++ '/' :: code.data)).dropWhile
      (fun c => c == '/' || c == '\\') =
      (hp.data ++ '/' :: code.data).dropWhile (fun c => c == '/' || c == '\\') := rfl
  unfold jsURL
  rw [hstrip, hts]
  simp only [hcont, if_true, hdrop2, hdrop, hauth, hafter, hat, hhost, hnotfile]
  rw [specialPathname_slash_code hcodec]

theorem jsURL_origin_slash_code (pre hp code : String) (host : List Char)
    (port : Option Nat)
    (hpre : pre = "http" ∨ pre = "https")
    (hhp0 : hp ≠ "")
    (hhpc : ∀ c ∈ hp.data,
      (c == '/' || c == '\\' || c == '?' || c == '#' || c == '@') = false ∧
      32 < c.toNat)
    (hhost : parseHostPort hp.data false = some (host, port))
    (hcodec : ∀ c ∈ code.data, isShortCodeChar c = true) :
    jsURL (pre ++ "://" ++ hp ++ "/" ++ code) =
      some { protocol := pre ++ ":", host := String.mk host, port := port,
             pathname := String.mk ('/' :: code.data) } := by
  have hsep : ("://" : String).data = [':', '/', '/'] := rfl
  have hslash : ("/" : String).data = ['/'] := rfl
  have hL : (pre ++ "://" ++ hp ++ "/" ++ code).data =
      pre.data ++ ':' :: '/' :: '/' :: (hp.data ++ '/' :: code.data) := by
    simp [hsep, hslash]
  have hprechar : ∀ c ∈ pre.data, 32 < c.toNat := by
    rcases hpre with rfl | rfl
    · intro c hc
      have hc' : c ∈ ['h', 't', 't', 'p'] := hc
      fin_cases hc' <;> decide
    · intro c hc
      have hc' : c ∈ ['h', 't', 't', 'p', 's'] := hc
      fin_cases hc' <;> decide
  have hall : ∀ c ∈ (pre ++ "://" ++ hp ++ "/" ++ code).data, 32 < c.toNat := by
    rw [hL]
    intro c hc
    simp only [List.mem_append, List.mem_cons] at hc
    rcases hc with hpre' | hc
    · exact hprechar c hpre'
    · rcases hc with rfl | hc
      · decide
      · rcases hc with rfl | hc
        · decide
        · rcases hc with rfl | hc
          · decide
          · rcases hc with hhp' | hc2
            · exact (hhpc c hhp').2
            · rcases hc2 with rfl | hcode'
              · decide
              · exact (shortCodeChar_facts (hcodec c hcode')).1
  have hstrip : stripControls (pre ++ "://" ++ hp ++ "/" ++ code).data =
      pre.data ++ ':' :: '/' :: '/' :: (hp.data ++ '/' :: code.data) :=
    (stripControls_eq_self hall).trans hL
  rcases hpre with rfl | rfl
  · exact jsURL_special_parse "http".data hp code host port _
      hstrip rfl rfl rfl hhp0 hhpc hhost hcodec
  · exact jsURL_special_parse "https".data hp code host port _
      hstrip rfl rfl rfl hhp0 hhpc hhost hcodec

/-- Claim C10: round trip of the URL helpers — for every non-empty code
over `[A-Za-z0-9_-]`, extracting the short code from the short URL
formed over a well-formed http or https origin returns exactly the
code. -/
theorem claim_C10 (pre hp code : String)
    (hpre : pre = "http" ∨ pre = "https")
    (hhp0 : hp ≠ "")
    (hhpc : ∀ c ∈ hp.data,
      (c == '/' || c == '\\' || c == '?' || c == '#' || c == '@') = false ∧
      32 < c.toNat)
    (hhost : (parseHostPort hp.data false).isSome = true)
    (hcode0 : code ≠ "")
    (hcodec : ∀ c ∈ code.data, isShortCodeChar c = true) :
    extractShortCode (getShortUrl (pre ++ "://" ++ hp) code) = some code := by
  obtain ⟨⟨host, port⟩, hhp'⟩ := Option.isSome_iff_exists.mp hhost
  have hparse := jsURL_origin_slash_code pre hp code host port hpre hhp0 hhpc hhp' hcodec
  have hurl : getShortUrl (pre ++ "://" ++ hp) code = pre ++ "://" ++ hp ++ "/" ++ code := rfl
  have hnoslash : ∀ x ∈ code.data, ((fun c => c == '/') x) = false := by
    intro x hx
    obtain ⟨-, hs, -, -, -, -⟩ := shortCodeChar_facts (hcodec x hx)
    simp [hs]
  have hsplit : splitOnPred (fun c => c == '/') ('/' :: code.data) = [[], code.data] := by
    rw [splitOnPred_cons_sep _ _ _ (by decide), splitOnPred_of_all_not _ _ hnoslash]
  have hmk : String.mk code.data = code := rfl
  have hpos : 0 < code.length := by
    apply Nat.pos_of_ne_zero
    intro h0
    exact hcode0 ((length_zero_iff_eq_empty code).mp h0)
  unfold extractShortCode
  rw [hurl, hparse]
  simp only [hsplit, List.map, List.filter, hmk]
  rw [splitOnPred_of_all_not _ _ hnoslash]
  simp [hmk, hpos]

/-- Witness for C10 at the origin `https://example.com` and the code
`abc_12`. -/
theorem claim_C10_witness :
    extractShortCode (getShortUrl "https://example.com" "abc_12") = some "abc_12" :=
  claim_C10 "https" "example.com" "abc_12" (Or.inr rfl) (by decide) (by decide)
    (by decide) (by decide) (by decide)

/-! ## Sanity evaluations of the URL-constructor model

These pin the model to the observable behaviour of the browser's `new
URL` on representative inputs, including the quirky ones the claims
hinge on. -/

theorem jsURL_eval_plain : jsURL "https://example.com" =
    some { protocol := "https:", host := "example.com", port := none,
           pathname := "/" } := by decide

theorem jsURL_eval_ftp_prefixed : jsURL "https://ftp://example.com" =
    some { protocol := "https:", host := "ftp", port := none,
           pathname := "//example.com" } := by decide

theorem jsURL_eval_ftp : jsURL "ftp://example.com" =
    some { protocol := "ftp:", host := "example.com", port := none,
           pathname := "/" } := by decide

theorem jsURL_eval_empty_host : jsURL "https://" = none := by decide

theorem jsURL_eval_port : jsURL "https://example.com:8080/a/b" =
    some { protocol := "https:", host := "example.com", port := some 8080,
           pathname := "/a/b" } := by decide

theorem jsURL_eval_dotdot : jsURL "http://x/a/.." =
    some { protocol := "http:", host := "x", port := none,
           pathname := "/" } := by decide

theorem jsURL_eval_bad_port : jsURL "https://mailto:foo" = none := by decide

theorem jsURL_eval_no_scheme : jsURL "invalid-url" = none := by decide
